import Mathlib

/-!
Verification of the WMS (warehouse management system) core logic: SKU-to-MSKU
resolution with combo (bundle) expansion, sales-file row processing with
per-MSKU inventory deltas, and inventory reconciliation.

The definitions below are shallow embeddings of the Python sources:
  * wms_web_app.py      (class WMSProcessor: map_sku_to_msku, detect_platform,
                         process_sales_file, update_inventory)
  * sku_msku_gui_mapper.py (the same row-processing logic)
  * database/service.py (DatabaseService.update_inventory)
  * database/models.py  (the Product schema)
Pandas dataframes become lists of records; Python dicts become association
lists with insert-or-overwrite semantics preserving insertion order; NaN or
missing cells become Option values.
-/

namespace WMS

/-- One row of the SKU-to-MSKU mapping table (sheet "Msku With Skus";
schema per database/models.py SKUMapping: sku, msku, platform).
The resolution code reads only the sku and msku columns. -/
structure SkuMappingRow where
  sku : String
  msku : String
  platform : String
deriving Repr, DecidableEq

/-- One row of the combo table (sheet "Combos skus"): a combo SKU cell that
may be blank, and the SKU1..SKU14 component cells, each possibly blank. -/
structure ComboRow where
  comboSku : Option String
  componentSkus : List (Option String)
deriving Repr, DecidableEq

/-- The non-blank component cells of a combo row, in column order
(wms_web_app.py create_combo_mapping, inner loop over SKU1..SKU14). -/
def comboComponents (row : ComboRow) : List String :=
  row.componentSkus.filterMap id

/-- Python dict assignment d[k] = v: overwrite in place if the key is
present, otherwise append at the end. -/
def dictSet {α : Type} : List (String × α) → String → α → List (String × α)
  | [], k, v => [(k, v)]
  | (k0, v0) :: rest, k, v =>
      if k0 = k then (k, v) :: rest else (k0, v0) :: dictSet rest k v

/-- Python dict lookup d[k] / `k in d`: the value at the first (unique)
matching key. -/
def dictFind? {α : Type} : List (String × α) → String → Option α
  | [], _ => none
  | (k0, v) :: rest, k => if k0 = k then some v else dictFind? rest k

/-- Embeds WMSProcessor.create_combo_mapping (wms_web_app.py lines 81-94):
rows with a non-blank combo SKU and at least one non-blank component
contribute combo_map[combo_sku] = components. -/
def create_combo_mapping (rows : List ComboRow) : List (String × List String) :=
  rows.foldl
    (fun m row =>
      match row.comboSku with
      | none => m
      | some comboSku =>
          let comps := comboComponents row
          if comps.isEmpty then m else dictSet m comboSku comps)
    []

/-- The outcome of resolving one raw SKU (the dict returned by
map_sku_to_msku: type combo / single / not_found; the not_found dict
carries the sentinel msku "Mapping Not Found", attached downstream). -/
inductive MappingResult where
  | combo (components : List String)
  | single (msku : String)
  | notFound
deriving Repr, DecidableEq

/-- mapping_data[mapping_data[sku-column] == sku].iloc[0]: the first mapping
row whose sku column equals the given SKU. -/
def findMappingRow : List SkuMappingRow → String → Option SkuMappingRow
  | [], _ => none
  | r :: rest, sku => if r.sku = sku then some r else findMappingRow rest sku

/-- Embeds WMSProcessor.map_sku_to_msku (wms_web_app.py lines 120-131; the
same logic as SKUMapperGUI.map_sku_to_msku, sku_msku_gui_mapper.py lines
157-168 with combo handling enabled): the combo dict is consulted first,
then the mapping table, filtered on the sku column only; first row wins. -/
def map_sku_to_msku (comboMap : List (String × List String))
    (mappingData : List SkuMappingRow) (sku : String) : MappingResult :=
  match dictFind? comboMap sku with
  | some comps => MappingResult.combo comps
  | none =>
      match findMappingRow mappingData sku with
      | some r => MappingResult.single r.msku
      | none => MappingResult.notFound

/-- Whether the first character list starts the second. -/
def isPrefixList : List Char → List Char → Bool
  | [], _ => true
  | _ :: _, [] => false
  | a :: as, b :: bs => a == b && isPrefixList as bs

/-- Whether the first character list occurs contiguously in the second
(the Python substring test "needle in haystack"). -/
def isInfixList : List Char → List Char → Bool
  | needle, [] => needle.isEmpty
  | needle, c :: rest => isPrefixList needle (c :: rest) || isInfixList needle rest

/-- Python str.upper, character by character. -/
def toUpperStr (s : String) : String :=
  String.mk (s.data.map Char.toUpper)

/-- Embeds WMSProcessor.detect_platform (wms_web_app.py lines 96-106):
classify the source marketplace from the joined, upper-cased header list. -/
def detect_platform (columns : List String) : String :=
  let s := toUpperStr (String.intercalate " " columns)
  if isInfixList "FNSKU".toList s.toList ∨ isInfixList "FULFILLMENT CENTER".toList s.toList then
    "Amazon"
  else if isInfixList "ORDER ITEM ID".toList s.toList ∨ isInfixList "FSN".toList s.toList then
    "Flipkart"
  else if isInfixList "SUB ORDER NO".toList s.toList then
    "Meesho"
  else
    "Unknown"

/-- One row of an uploaded sales file, abstracted to the cells the row loop
of process_sales_file reads: the value in the platform's SKU column (none =
NaN/blank), the Quantity cell (none = the file has no Quantity column, in
which case row.get falls back to the default 1), and the Amazon filter
columns Event Type and Disposition (none = column absent). -/
structure SalesRow where
  sku : Option String
  quantity : Option Int
  eventType : Option String
  disposition : Option String
deriving Repr, DecidableEq

/-- One emitted output row: the copied original row plus the columns the
processing loop writes (Original_SKU only in the combo branch; MSKU,
Product_Type, Platform always; Quantity overwritten only in the combo
branch, otherwise kept from the copied row). -/
structure OutLine where
  base : SalesRow
  originalSku : Option String
  msku : String
  quantityField : Option Int
  productType : String
  platform : String
deriving Repr, DecidableEq

/-- The output row built for one combo component (wms_web_app.py lines
163-170): Original_SKU and Quantity are set explicitly; Quantity carries
the full original quantity. -/
def comboLine (row : SalesRow) (sku : String) (quantity : Int)
    (componentMsku : String) (platform : String) : OutLine :=
  { base := row, originalSku := some sku, msku := componentMsku,
    quantityField := some quantity, productType := "Combo_Component",
    platform := platform }

/-- The output row built for a single-mapping SKU (wms_web_app.py lines
179-184): the row is copied, so the Quantity cell keeps its original value
(absent if the file had no Quantity column); no Original_SKU is set. -/
def singleLine (row : SalesRow) (msku : String) (platform : String) : OutLine :=
  { base := row, originalSku := none, msku := msku,
    quantityField := row.quantity, productType := "Single",
    platform := platform }

/-- The output row built for an unresolved SKU (wms_web_app.py lines
194-198): sentinel MSKU, tag Unknown, row otherwise copied. -/
def unknownLine (row : SalesRow) (platform : String) : OutLine :=
  { base := row, originalSku := none, msku := "Mapping Not Found",
    quantityField := row.quantity, productType := "Unknown",
    platform := platform }

/-- The Amazon sellable-shipment test (wms_web_app.py line 156): the row
counts only when Event Type is "Shipments" and Disposition is "SELLABLE";
an absent column fails the test. -/
def amazonSellable (row : SalesRow) : Bool :=
  row.eventType == some "Shipments" && row.disposition == some "SELLABLE"

/-- Dict accumulation of inventory_changes (wms_web_app.py lines 172-176,
186-191): add to the existing entry in place, or append a new key. -/
def addChange : List (String × Int) → String → Int → List (String × Int)
  | [], m, q => [(m, q)]
  | (k, v) :: rest, m, q =>
      if k = m then (k, v + q) :: rest else (k, v) :: addChange rest m q

/-- One iteration of the row loop of WMSProcessor.process_sales_file
(wms_web_app.py lines 147-199), acting on the accumulated state
(processed_rows, inventory_changes): skip on missing SKU or non-positive
quantity (the Quantity cell defaults to 1 when the column is absent), skip
Amazon rows failing the sellable-shipment filter, then fan out combos (one
line per component, full quantity each), emit a single line, or emit an
Unknown line with no delta contribution. -/
def processRow (comboMap : List (String × List String))
    (mappingData : List SkuMappingRow) (platform : String)
    (st : List OutLine × List (String × Int)) (row : SalesRow) :
    List OutLine × List (String × Int) :=
  match row.sku with
  | none => st
  | some sku =>
      let quantity : Int := row.quantity.getD 1
      if quantity ≤ 0 then st
      else if platform = "Amazon" ∧ amazonSellable row = false then st
      else
        match map_sku_to_msku comboMap mappingData sku with
        | MappingResult.combo comps =>
            comps.foldl
              (fun st2 c =>
                (st2.1 ++ [comboLine row sku quantity c platform],
                 addChange st2.2 c quantity))
              st
        | MappingResult.single m =>
            (st.1 ++ [singleLine row m platform], addChange st.2 m quantity)
        | MappingResult.notFound =>
            (st.1 ++ [unknownLine row platform], st.2)

/-- Embeds the row loop of WMSProcessor.process_sales_file (wms_web_app.py
lines 133-201), after the platform has been detected and the SKU column
located: the expanded line list and the per-MSKU quantity-sold map. -/
def process_sales_file (comboMap : List (String × List String))
    (mappingData : List SkuMappingRow) (platform : String)
    (rows : List SalesRow) : List OutLine × List (String × Int) :=
  rows.foldl (processRow comboMap mappingData platform) ([], [])

/-- One row of the Current Inventory sheet after header fixing
(wms_web_app.py lines 50-68): the msku column, the Product Name column, the
Opening Stock column that update_inventory writes, and the remaining
numeric columns, which the updater never touches. -/
structure InvRow where
  msku : String
  productName : String
  openingStock : Int
  others : List (String × Int)
deriving Repr, DecidableEq

/-- The first inventory row matching an msku: the row that
current_inventory.loc[mask, quantity_column].iloc[0] reads. -/
def findInvRow : List InvRow → String → Option InvRow
  | [], _ => none
  | r :: rest, m => if r.msku = m then some r else findInvRow rest m

/-- One masked update (wms_web_app.py lines 235-240): if some row matches
the msku, read the first matching row's Opening Stock, subtract the
quantity sold, and write the result back to every matching row; also
returns the new quantity, or none when no row matches. -/
def applyChange (inv : List InvRow) (msku : String) (quantitySold : Int) :
    List InvRow × Option Int :=
  match findInvRow inv msku with
  | none => (inv, none)
  | some r0 =>
      let newQty := r0.openingStock - quantitySold
      (inv.map (fun r => if r.msku = msku then { r with openingStock := newQty } else r),
       some newQty)

/-- The state of the WMSProcessor.update_inventory loop: the inventory
table, the updated_items counter and the warnings list. -/
structure UpdState where
  inventory : List InvRow
  updatedItems : Nat
  warnings : List String
deriving Repr, DecidableEq

/-- One iteration of the loop of WMSProcessor.update_inventory
(wms_web_app.py lines 234-248): apply the masked update; on success count
it and warn when the new quantity is negative or below the constant 5;
otherwise record the MSKU-not-found warning. -/
def updStep (st : UpdState) (change : String × Int) : UpdState :=
  match applyChange st.inventory change.1 change.2 with
  | (inv2, some newQty) =>
      { inventory := inv2, updatedItems := st.updatedItems + 1,
        warnings := st.warnings ++
          (if newQty < 0 then [change.1 ++ ": Negative stock (" ++ toString newQty ++ ")"]
           else if newQty < 5 then [change.1 ++ ": Low stock (" ++ toString newQty ++ ")"]
           else []) }
  | (inv2, none) =>
      { inventory := inv2, updatedItems := st.updatedItems,
        warnings := st.warnings ++ ["MSKU not found: " ++ change.1] }

/-- Embeds the loop of WMSProcessor.update_inventory (wms_web_app.py lines
206-255), after the msku and quantity columns have been located ("msku" and
"Opening Stock"); inventory_changes is the Python dict as an association
list in insertion order. -/
def update_inventory (inv : List InvRow) (changes : List (String × Int)) : UpdState :=
  changes.foldl updStep { inventory := inv, updatedItems := 0, warnings := [] }

/-- The inventory component of the update loop on its own (used to reason
about update_inventory componentwise). -/
def invFold (inv : List InvRow) (changes : List (String × Int)) : List InvRow :=
  changes.foldl (fun i c => (applyChange i c.1 c.2).1) inv

/-- The updated-items count of the update loop on its own. -/
def updCount : List InvRow → List (String × Int) → Nat
  | _, [] => 0
  | inv, c :: rest =>
      match applyChange inv c.1 c.2 with
      | (inv2, some _) => 1 + updCount inv2 rest
      | (inv2, none) => updCount inv2 rest

/-- The warnings of the update loop on its own. -/
def updWarns : List InvRow → List (String × Int) → List String
  | _, [] => []
  | inv, c :: rest =>
      match applyChange inv c.1 c.2 with
      | (inv2, some newQty) =>
          (if newQty < 0 then [c.1 ++ ": Negative stock (" ++ toString newQty ++ ")"]
           else if newQty < 5 then [c.1 ++ ": Low stock (" ++ toString newQty ++ ")"]
           else []) ++ updWarns inv2 rest
      | (inv2, none) => ("MSKU not found: " ++ c.1) :: updWarns inv2 rest

/-- A row of the products table (database/models.py Product): msku is
declared unique; buffer_stock is the reorder-threshold column. -/
structure DbProduct where
  msku : String
  productName : String
  openingStock : Int
  currentStock : Int
  bufferStock : Int
deriving Repr, DecidableEq

/-- A row of the inventory_movements table (database/models.py
InventoryMovement), as DatabaseService.update_inventory records it. -/
structure DbMovement where
  msku : String
  movementType : String
  quantityChange : Int
  stockBefore : Int
  stockAfter : Int
deriving Repr, DecidableEq

/-- Product.query.filter_by(msku=msku).first(). -/
def findDbProduct : List DbProduct → String → Option DbProduct
  | [], _ => none
  | p :: rest, m => if p.msku = m then some p else findDbProduct rest m

/-- SQLAlchemy mutation of the located product object: the first matching
row's current_stock is set, every other row is untouched. -/
def setStockFirst : List DbProduct → String → Int → List DbProduct
  | [], _, _ => []
  | p :: rest, m, after =>
      if p.msku = m then { p with currentStock := after } :: rest
      else p :: setStockFirst rest m after

/-- Embeds DatabaseService.update_inventory (database/service.py lines
92-122): locate the product (failure result and no mutation when absent),
set current_stock to stock_before + quantity_change (quantity_change is
signed, negative for sales) and record the movement row. -/
def db_update_inventory (ledger : List DbProduct) (msku : String)
    (quantityChange : Int) (movementType : String) :
    (Bool × String) × List DbProduct × Option DbMovement :=
  match findDbProduct ledger msku with
  | none => ((false, "Product " ++ msku ++ " not found"), ledger, none)
  | some p =>
      let stockBefore := p.currentStock
      let stockAfter := stockBefore + quantityChange
      ((true, "Updated " ++ msku ++ ": " ++ toString stockBefore ++ " -> " ++ toString stockAfter),
       setStockFirst ledger msku stockAfter,
       some { msku := msku, movementType := movementType,
              quantityChange := quantityChange, stockBefore := stockBefore,
              stockAfter := stockAfter })

/-- Frame relation for the inventory update: row for row, the msku, the
Product Name and all other columns are unchanged, and a row whose msku is
not among the delta-map keys is entirely unchanged. -/
def FramePreserved (keys : List String) (inv inv2 : List InvRow) : Prop :=
  List.Forall₂
    (fun r t => t.msku = r.msku ∧ t.productName = r.productName ∧
      t.others = r.others ∧ (r.msku ∉ keys → t = r))
    inv inv2

end WMS

namespace WMS

/-- A fold step that fixes every state can be dropped from the middle of a
fold. -/
theorem foldl_skip {α β : Type} (f : β → α → β) (x : α) (h : ∀ st, f st x = st)
    (init : β) (l1 l2 : List α) :
    List.foldl f init (l1 ++ x :: l2) = List.foldl f init (l1 ++ l2) := by
  rw [List.foldl_append, List.foldl_append, List.foldl_cons, h]

/-- A row with a missing SKU, a non-positive quantity, or failing the
Amazon sellable filter leaves the processing state untouched. -/
theorem processRow_skip (comboMap : List (String × List String))
    (mappingData : List SkuMappingRow) (platform : String) (row : SalesRow)
    (h : row.sku = none ∨ row.quantity.getD 1 ≤ 0 ∨
      (platform = "Amazon" ∧ amazonSellable row = false)) :
    ∀ st, processRow comboMap mappingData platform st row = st := by
  intro st
  unfold processRow
  cases hsku : row.sku with
  | none => rfl
  | some sku =>
    rcases h with h | h | h
    · rw [hsku] at h; cases h
    · simp only [if_pos h]
    · by_cases hq : row.quantity.getD 1 ≤ 0
      · simp only [if_pos hq]
      · simp only [if_neg hq, if_pos h]

/-- A row that passes the skip checks is resolved and dispatched on the
resolution outcome. -/
theorem processRow_run (comboMap : List (String × List String))
    (mappingData : List SkuMappingRow) (platform : String)
    (st : List OutLine × List (String × Int)) (row : SalesRow) (s : String)
    (hs : row.sku = some s)
    (hq1 : ¬ row.quantity.getD 1 ≤ 0)
    (hfil : ¬ (platform = "Amazon" ∧ amazonSellable row = false)) :
    processRow comboMap mappingData platform st row =
      match map_sku_to_msku comboMap mappingData s with
      | MappingResult.combo comps =>
          comps.foldl
            (fun st2 c =>
              (st2.1 ++ [comboLine row s (row.quantity.getD 1) c platform],
               addChange st2.2 c (row.quantity.getD 1)))
            st
      | MappingResult.single m =>
          (st.1 ++ [singleLine row m platform],
           addChange st.2 m (row.quantity.getD 1))
      | MappingResult.notFound => (st.1 ++ [unknownLine row platform], st.2) := by
  unfold processRow
  rw [hs]
  simp only [if_neg hq1, if_neg hfil]

/-- The first inventory row found for an msku carries that msku. -/
theorem findInvRow_eq_some_msku (inv : List InvRow) (m : String) (r : InvRow)
    (h : findInvRow inv m = some r) : r.msku = m := by
  induction inv with
  | nil => cases h
  | cons a rest ih =>
    unfold findInvRow at h
    by_cases ha : a.msku = m
    · rw [if_pos ha] at h
      rw [← Option.some.inj h]; exact ha
    · rw [if_neg ha] at h; exact ih h

/-- Finding in a mapped inventory, when the map preserves mskus. -/
theorem findInvRow_map_msku (inv : List InvRow) (f : InvRow → InvRow) (m : String)
    (hf : ∀ r, (f r).msku = r.msku) :
    findInvRow (inv.map f) m = (findInvRow inv m).map f := by
  induction inv with
  | nil => rfl
  | cons a rest ih =>
    simp only [List.map_cons]
    unfold findInvRow
    rw [hf a]
    by_cases ha : a.msku = m
    · rw [if_pos ha, if_pos ha]; rfl
    · rw [if_neg ha, if_neg ha]; exact ih

/-- A masked update for an absent msku is the identity. -/
theorem applyChange_of_none (inv : List InvRow) (k : String) (q : Int)
    (h : findInvRow inv k = none) : applyChange inv k q = (inv, none) := by
  unfold applyChange; rw [h]

/-- A masked update for a present msku maps the table pointwise. -/
theorem applyChange_of_some (inv : List InvRow) (k : String) (q : Int) (r0 : InvRow)
    (h : findInvRow inv k = some r0) :
    applyChange inv k q =
      (inv.map fun r =>
        if r.msku = k then { r with openingStock := r0.openingStock - q } else r,
       some (r0.openingStock - q)) := by
  unfold applyChange; rw [h]

/-- The inventory component of a masked update for a present msku. -/
theorem applyChange_fst_of_some (inv : List InvRow) (k : String) (q : Int)
    (r0 : InvRow) (h : findInvRow inv k = some r0) :
    (applyChange inv k q).1 =
      inv.map fun r =>
        if r.msku = k then { r with openingStock := r0.openingStock - q } else r := by
  rw [applyChange_of_some inv k q r0 h]

/-- A masked update for one msku does not move the first row found for a
different msku. -/
theorem findInvRow_applyChange_of_ne (inv : List InvRow) (k : String) (q : Int)
    (m : String) (hk : k ≠ m) :
    findInvRow (applyChange inv k q).1 m = findInvRow inv m := by
  cases h : findInvRow inv k with
  | none => rw [applyChange_of_none inv k q h]
  | some r0 =>
    rw [applyChange_fst_of_some inv k q r0 h,
      findInvRow_map_msku inv _ m (fun r => by by_cases hr : r.msku = k <;> simp [hr])]
    cases hm : findInvRow inv m with
    | none => rfl
    | some rm =>
      have hrm : rm.msku = m := findInvRow_eq_some_msku inv m rm hm
      simp only [Option.map_some']
      rw [if_neg (by rw [hrm]; exact fun hc => hk hc.symm)]

/-- After a masked update for a present msku, the first row found for it
carries the new quantity. -/
theorem findInvRow_applyChange_self (inv : List InvRow) (m : String) (q : Int)
    (r0 : InvRow) (h : findInvRow inv m = some r0) :
    findInvRow (applyChange inv m q).1 m =
      some { r0 with openingStock := r0.openingStock - q } := by
  rw [applyChange_fst_of_some inv m q r0 h,
    findInvRow_map_msku inv _ m (fun r => by by_cases hr : r.msku = m <;> simp [hr]), h]
  simp only [Option.map_some']
  rw [if_pos (findInvRow_eq_some_msku inv m r0 h)]

/-- A masked update never makes an absent msku present. -/
theorem findInvRow_applyChange_none (inv : List InvRow) (k : String) (q : Int)
    (m : String) (h : findInvRow inv m = none) :
    findInvRow (applyChange inv k q).1 m = none := by
  by_cases hk : k = m
  · subst hk; rw [applyChange_of_none inv k q h]; exact h
  · rw [findInvRow_applyChange_of_ne inv k q m hk]; exact h

/-- Unfolding the update fold one change at a time. -/
theorem invFold_cons (inv : List InvRow) (c : String × Int)
    (rest : List (String × Int)) :
    invFold inv (c :: rest) = invFold (applyChange inv c.1 c.2).1 rest := rfl

/-- The update fold splits over list append. -/
theorem invFold_append (inv : List InvRow) (a b : List (String × Int)) :
    invFold inv (a ++ b) = invFold (invFold inv a) b := by
  unfold invFold; rw [List.foldl_append]

/-- The update loop is its three components run side by side. -/
theorem update_foldl_decomp (l : List (String × Int)) (st : UpdState) :
    List.foldl updStep st l =
      { inventory := invFold st.inventory l,
        updatedItems := st.updatedItems + updCount st.inventory l,
        warnings := st.warnings ++ updWarns st.inventory l } := by
  induction l generalizing st with
  | nil => simp [invFold, updCount, updWarns]
  | cons c rest ih =>
    rw [List.foldl_cons, ih (updStep st c)]
    cases h : applyChange st.inventory c.1 c.2 with
    | mk inv2 opt =>
      cases opt with
      | some newQty =>
          simp only [updStep, h, updCount, updWarns, invFold_cons]
          congr 1 <;> first
            | rfl
            | omega
            | rw [List.append_assoc]
      | none =>
          simp only [updStep, h, updCount, updWarns, invFold_cons]
          congr 1 <;> first
            | rfl
            | omega
            | simp

/-- update_inventory, componentwise. -/
theorem update_inventory_decomp (inv : List InvRow) (changes : List (String × Int)) :
    update_inventory inv changes =
      { inventory := invFold inv changes,
        updatedItems := updCount inv changes,
        warnings := updWarns inv changes } := by
  unfold update_inventory
  rw [update_foldl_decomp]
  simp

/-- The warnings of the update loop split over list append. -/
theorem updWarns_append (a : List (String × Int)) (inv : List InvRow)
    (b : List (String × Int)) :
    updWarns inv (a ++ b) = updWarns inv a ++ updWarns (invFold inv a) b := by
  induction a generalizing inv with
  | nil => simp [updWarns, invFold]
  | cons c rest ih =>
    rw [List.cons_append]
    show updWarns inv (c :: (rest ++ b)) = _
    cases h : applyChange inv c.1 c.2 with
    | mk inv2 opt =>
      cases opt with
      | some newQty =>
          simp only [updWarns, h, invFold_cons]
          rw [ih inv2, List.append_assoc]
      | none =>
          simp only [updWarns, h, invFold_cons]
          rw [ih inv2]; rfl

/-- The updated-items count of the update loop splits over list append. -/
theorem updCount_append (a : List (String × Int)) (inv : List InvRow)
    (b : List (String × Int)) :
    updCount inv (a ++ b) = updCount inv a + updCount (invFold inv a) b := by
  induction a generalizing inv with
  | nil => simp [updCount, invFold]
  | cons c rest ih =>
    rw [List.cons_append]
    cases h : applyChange inv c.1 c.2 with
    | mk inv2 opt =>
      cases opt with
      | some newQty =>
          simp only [updCount, h, invFold_cons]
          rw [ih inv2]; omega
      | none =>
          simp only [updCount, h, invFold_cons]
          rw [ih inv2]

/-- Folding changes whose keys all differ from an msku does not move the
first row found for it. -/
theorem findInvRow_invFold_of_ne (l : List (String × Int)) (inv : List InvRow)
    (m : String) (h : ∀ c ∈ l, c.1 ≠ m) :
    findInvRow (invFold inv l) m = findInvRow inv m := by
  induction l generalizing inv with
  | nil => rfl
  | cons c rest ih =>
    rw [invFold_cons,
      ih _ (fun x hx => h x (List.mem_cons_of_mem c hx)),
      findInvRow_applyChange_of_ne _ _ _ _ (h c (List.mem_cons_self c rest))]

/-- Folding changes never makes an absent msku present. -/
theorem findInvRow_invFold_none (l : List (String × Int)) (inv : List InvRow)
    (m : String) (h : findInvRow inv m = none) :
    findInvRow (invFold inv l) m = none := by
  induction l generalizing inv with
  | nil => exact h
  | cons c rest ih =>
    rw [invFold_cons]
    exact ih _ (findInvRow_applyChange_none _ _ _ _ h)

/-- Mutating the first matching product and then searching for that msku
yields the mutated product. -/
theorem findDbProduct_setStockFirst (ledger : List DbProduct) (m : String) (v : Int) :
    findDbProduct (setStockFirst ledger m v) m =
      (findDbProduct ledger m).map fun p => { p with currentStock := v } := by
  induction ledger with
  | nil => rfl
  | cons p rest ih =>
    by_cases hp : p.msku = m
    · show findDbProduct (if p.msku = m then _ else _) m = _
      rw [if_pos hp]
      show (if ({ p with currentStock := v } : DbProduct).msku = m then _ else _) = _
      simp only []
      rw [if_pos hp]
      show _ = (if p.msku = m then some p else findDbProduct rest m).map _
      rw [if_pos hp]
      rfl
    · show findDbProduct (if p.msku = m then _ else _) m = _
      rw [if_neg hp]
      show (if p.msku = m then _ else _) = _
      rw [if_neg hp, ih]
      show _ = (if p.msku = m then some p else findDbProduct rest m).map _
      rw [if_neg hp]

/-- The frame relation is reflexive. -/
theorem framePreserved_refl (keys : List String) (inv : List InvRow) :
    FramePreserved keys inv inv := by
  induction inv with
  | nil => exact List.Forall₂.nil
  | cons r rest ih => exact List.Forall₂.cons ⟨rfl, rfl, rfl, fun _ => rfl⟩ ih

/-- A pointwise map that preserves msku, Product Name and the other
columns, and fixes every row whose msku differs from the touched key, is
frame-preserving for that key. -/
theorem framePreserved_map (inv : List InvRow) (k : String) (f : InvRow → InvRow)
    (hmsku : ∀ r, (f r).msku = r.msku)
    (hname : ∀ r, (f r).productName = r.productName)
    (hoth : ∀ r, (f r).others = r.others)
    (hfix : ∀ r, r.msku ≠ k → f r = r) :
    FramePreserved [k] inv (inv.map f) := by
  induction inv with
  | nil => exact List.Forall₂.nil
  | cons a rest ih =>
    exact List.Forall₂.cons
      ⟨hmsku a, hname a, hoth a, fun hn => hfix a (by simpa using hn)⟩ ih

/-- One masked update is frame-preserving for its key. -/
theorem framePreserved_applyChange (inv : List InvRow) (k : String) (q : Int) :
    FramePreserved [k] inv (applyChange inv k q).1 := by
  cases h : findInvRow inv k with
  | none =>
      rw [applyChange_of_none inv k q h]
      exact framePreserved_refl [k] inv
  | some r0 =>
      rw [applyChange_fst_of_some inv k q r0 h]
      refine framePreserved_map inv k _ ?_ ?_ ?_ ?_ <;>
        (intro r; by_cases hr : r.msku = k <;> simp [hr])

/-- Frame relations compose, joining the touched key sets. -/
theorem framePreserved_trans (k1 k2 : List String) (a b c : List InvRow)
    (hab : FramePreserved k1 a b) (hbc : FramePreserved k2 b c) :
    FramePreserved (k1 ++ k2) a c := by
  induction hab generalizing c with
  | nil => cases hbc; exact List.Forall₂.nil
  | cons pab restab ih =>
      cases hbc with
      | cons pbc restbc =>
          refine List.Forall₂.cons ⟨?_, ?_, ?_, ?_⟩ (ih _ restbc)
          · rw [pbc.1, pab.1]
          · rw [pbc.2.1, pab.2.1]
          · rw [pbc.2.2.1, pab.2.2.1]
          · intro hn
            rw [List.mem_append] at hn
            push_neg at hn
            have hb := pab.2.2.2 hn.1
            have hc := pbc.2.2.2 (by rw [pab.1]; exact hn.2)
            rw [hc, hb]

/-- The whole update fold is frame-preserving for the list of its keys. -/
theorem framePreserved_invFold (changes : List (String × Int)) (inv : List InvRow) :
    FramePreserved (changes.map Prod.fst) inv (invFold inv changes) := by
  induction changes generalizing inv with
  | nil => exact framePreserved_refl [] inv
  | cons c rest ih =>
      rw [invFold_cons]
      have h := framePreserved_trans [c.1] (rest.map Prod.fst) inv
        (applyChange inv c.1 c.2).1 (invFold (applyChange inv c.1 c.2).1 rest)
        (framePreserved_applyChange inv c.1 c.2) (ih (applyChange inv c.1 c.2).1)
      simpa using h

end WMS

namespace WMS

/-- Claim C1: for a SKU present both in the combo dict and in the mapping
table, map_sku_to_msku returns the combo outcome and never a single
outcome: the combo lookup is consulted before the single-item mapping. -/
theorem combo_precedence (comboMap : List (String × List String))
    (mappingData : List SkuMappingRow) (sku : String) (comps : List String)
    (hc : dictFind? comboMap sku = some comps)
    (_hm : ∃ r ∈ mappingData, r.sku = sku) :
    map_sku_to_msku comboMap mappingData sku = MappingResult.combo comps ∧
      ∀ m, map_sku_to_msku comboMap mappingData sku ≠ MappingResult.single m := by
  unfold map_sku_to_msku
  rw [hc]
  exact ⟨rfl, fun m h => by cases h⟩

/-- Claim C1, witness: a concrete SKU "S" present in both tables resolves to
the combo outcome and not to a single outcome. -/
theorem combo_precedence_witness :
    map_sku_to_msku [("S", ["A", "B"])] [⟨"S", "M", "Amazon"⟩] "S" =
      MappingResult.combo ["A", "B"] ∧
    map_sku_to_msku [("S", ["A", "B"])] [⟨"S", "M", "Amazon"⟩] "S" ≠
      MappingResult.single "M" := by
  have h := combo_precedence [("S", ["A", "B"])] [⟨"S", "M", "Amazon"⟩] "S" ["A", "B"]
    (by decide) ⟨⟨"S", "M", "Amazon"⟩, by decide, rfl⟩
  exact ⟨h.1, h.2 "M"⟩

/-- Claim C4: a sales row with a missing SKU or a non-positive quantity
(the Quantity cell defaulting to 1 when absent) leaves the processing
state untouched: dropped anywhere in a file, it changes neither the
emitted lines nor the delta map. -/
theorem skip_missing_or_nonpositive (comboMap : List (String × List String))
    (mappingData : List SkuMappingRow) (platform : String)
    (st : List OutLine × List (String × Int)) (row : SalesRow)
    (rows1 rows2 : List SalesRow)
    (h : row.sku = none ∨ row.quantity.getD 1 ≤ 0) :
    processRow comboMap mappingData platform st row = st ∧
    process_sales_file comboMap mappingData platform (rows1 ++ row :: rows2) =
      process_sales_file comboMap mappingData platform (rows1 ++ rows2) := by
  have hs := processRow_skip comboMap mappingData platform row
    (by rcases h with h | h
        · exact Or.inl h
        · exact Or.inr (Or.inl h))
  exact ⟨hs st, foldl_skip _ _ hs _ rows1 rows2⟩

/-- Claim C4, witness: a concrete row with SKU cell NaN contributes
nothing, and a concrete row with quantity 0 contributes nothing. -/
theorem skip_missing_or_nonpositive_witness :
    processRow [] [⟨"S", "M", "Flipkart"⟩] "Flipkart" ([], [])
      ⟨none, some 5, none, none⟩ = ([], []) ∧
    process_sales_file [] [⟨"S", "M", "Flipkart"⟩] "Flipkart"
        [⟨none, some 5, none, none⟩, ⟨some "S", some 2, none, none⟩] =
      process_sales_file [] [⟨"S", "M", "Flipkart"⟩] "Flipkart"
        [⟨some "S", some 2, none, none⟩] := by
  have h := skip_missing_or_nonpositive [] [⟨"S", "M", "Flipkart"⟩] "Flipkart"
    ([], []) ⟨none, some 5, none, none⟩ [] [⟨some "S", some 2, none, none⟩]
    (Or.inl rfl)
  exact h

/-- Claim C8: in a file whose platform is Amazon, a row whose Event Type
is not "Shipments" or whose Disposition is not "SELLABLE" is excluded
entirely — it changes neither the emitted lines nor the delta map,
whatever its SKU is. -/
theorem amazon_filter_excludes (comboMap : List (String × List String))
    (mappingData : List SkuMappingRow)
    (st : List OutLine × List (String × Int)) (row : SalesRow)
    (rows1 rows2 : List SalesRow)
    (h : ¬ (row.eventType = some "Shipments" ∧ row.disposition = some "SELLABLE")) :
    processRow comboMap mappingData "Amazon" st row = st ∧
    process_sales_file comboMap mappingData "Amazon" (rows1 ++ row :: rows2) =
      process_sales_file comboMap mappingData "Amazon" (rows1 ++ rows2) := by
  have hb : amazonSellable row = false := by
    simp only [amazonSellable, Bool.and_eq_false_iff, beq_eq_false_iff_ne, ne_eq]
    tauto
  have hs := processRow_skip comboMap mappingData "Amazon" row
    (Or.inr (Or.inr ⟨rfl, hb⟩))
  exact ⟨hs st, foldl_skip _ _ hs _ rows1 rows2⟩

/-- Claim C8, witness: a concrete Amazon row with Disposition "UNSELLABLE"
and a mappable SKU is excluded from output and delta. -/
theorem amazon_filter_excludes_witness :
    processRow [] [⟨"S", "M", "Amazon"⟩] "Amazon" ([], [])
      ⟨some "S", some 3, some "Shipments", some "UNSELLABLE"⟩ = ([], []) ∧
    process_sales_file [] [⟨"S", "M", "Amazon"⟩] "Amazon"
        [⟨some "S", some 3, some "Shipments", some "UNSELLABLE"⟩] =
      process_sales_file [] [⟨"S", "M", "Amazon"⟩] "Amazon" [] := by
  exact amazon_filter_excludes [] [⟨"S", "M", "Amazon"⟩] ([], [])
    ⟨some "S", some 3, some "Shipments", some "UNSELLABLE"⟩ [] [] (by decide)

/-- The empty fold is the inventory itself. -/
theorem invFold_nil (inv : List InvRow) : invFold inv [] = inv := rfl

/-- Claim C2, counterexample: for a combo sale of quantity 3 with
components A and B, the delta map entry for A is the positive quantity
sold 3, not the signed value -3 the claim states. -/
theorem combo_delta_sign_cex :
    dictFind?
        (process_sales_file [("C", ["A", "B"])] [] "Meesho"
          [⟨some "C", some 3, none, none⟩]).2 "A" = some 3 ∧
    ¬ dictFind?
        (process_sales_file [("C", ["A", "B"])] [] "Meesho"
          [⟨some "C", some 3, none, none⟩]).2 "A" = some (-3) := by
  decide

/-- Claim C2, amended: a row resolving to a combo with components A and B
and quantity N > 0 emits one line per component, each carrying the full
quantity N, and the delta map records the positive quantity sold N for
each component; the inventory update then subtracts it, so the net stock
change per component is -N. -/
theorem combo_fanout_full_quantity (comboMap : List (String × List String))
    (mappingData : List SkuMappingRow) (platform : String) (row : SalesRow)
    (s A B : String) (N : Int)
    (hs : row.sku = some s) (hq : row.quantity = some N) (hN : 0 < N)
    (hAB : A ≠ B)
    (hres : map_sku_to_msku comboMap mappingData s = MappingResult.combo [A, B])
    (hfil : platform = "Amazon" → amazonSellable row = true) :
    process_sales_file comboMap mappingData platform [row] =
      ([comboLine row s N A platform, comboLine row s N B platform],
       [(A, N), (B, N)]) ∧
    ∀ (inv : List InvRow) (r0 : InvRow), findInvRow inv A = some r0 →
      (findInvRow
          (update_inventory inv
            (process_sales_file comboMap mappingData platform [row]).2).inventory
          A).map InvRow.openingStock = some (r0.openingStock + (-N)) := by
  have hgd : row.quantity.getD 1 = N := by rw [hq]; rfl
  have hq1 : ¬ row.quantity.getD 1 ≤ 0 := by rw [hgd]; omega
  have hfil2 : ¬ (platform = "Amazon" ∧ amazonSellable row = false) := by
    rintro ⟨h1, h2⟩
    rw [hfil h1] at h2
    cases h2
  have hmain : process_sales_file comboMap mappingData platform [row] =
      ([comboLine row s N A platform, comboLine row s N B platform],
       [(A, N), (B, N)]) := by
    show processRow comboMap mappingData platform ([], []) row = _
    rw [processRow_run comboMap mappingData platform ([], []) row s hs hq1 hfil2,
      hres]
    simp only [List.foldl_cons, List.foldl_nil, hgd]
    simp [addChange, if_neg hAB]
  refine ⟨hmain, ?_⟩
  intro inv r0 hr
  rw [hmain, update_inventory_decomp]
  show (findInvRow (invFold inv [(A, N), (B, N)]) A).map InvRow.openingStock = _
  simp only [invFold_cons, invFold_nil]
  rw [findInvRow_applyChange_of_ne _ B N A (Ne.symm hAB),
    findInvRow_applyChange_self inv A N r0 hr]
  simp only [Option.map_some']
  show some (r0.openingStock - N) = some (r0.openingStock + -N)
  rw [Int.sub_eq_add_neg]

/-- Claim C2, witness: a concrete combo sale of quantity 3 fans out into
two full-quantity lines, records delta 3 per component, and the update
then lowers component stock 10 to 10 + (-3). -/
theorem combo_fanout_full_quantity_witness :
    process_sales_file [("C", ["A", "B"])] [] "Meesho"
        [⟨some "C", some 3, none, none⟩] =
      ([comboLine ⟨some "C", some 3, none, none⟩ "C" 3 "A" "Meesho",
        comboLine ⟨some "C", some 3, none, none⟩ "C" 3 "B" "Meesho"],
       [("A", 3), ("B", 3)]) ∧
    (findInvRow
        (update_inventory [⟨"A", "P", 10, []⟩]
          (process_sales_file [("C", ["A", "B"])] [] "Meesho"
            [⟨some "C", some 3, none, none⟩]).2).inventory
        "A").map InvRow.openingStock = some (10 + (-3)) := by
  have h := combo_fanout_full_quantity [("C", ["A", "B"])] [] "Meesho"
    ⟨some "C", some 3, none, none⟩ "C" "A" "B" 3 rfl rfl (by omega) (by decide)
    (by decide) (by decide)
  exact ⟨h.1, h.2 [⟨"A", "P", 10, []⟩] ⟨"A", "P", 10, []⟩ rfl⟩

/-- Claim C9, counterexample: for a file with no Quantity column, a
single-resolution row is processed with default quantity 1 in the delta
map, but its emitted line does not record quantity 1 — the copied row
keeps its absent Quantity cell. -/
theorem default_quantity_line_cex :
    (process_sales_file [] [⟨"S", "M", "Flipkart"⟩] "Flipkart"
        [⟨some "S", none, none, none⟩]).2 = [("M", 1)] ∧
    (process_sales_file [] [⟨"S", "M", "Flipkart"⟩] "Flipkart"
        [⟨some "S", none, none, none⟩]).1 =
      [singleLine ⟨some "S", none, none, none⟩ "M" "Flipkart"] ∧
    (singleLine ⟨some "S", none, none, none⟩ "M" "Flipkart").quantityField ≠
      some 1 := by
  decide

/-- Claim C9, amended: a row whose file has no Quantity column is not
skipped and is treated with the default quantity 1: the delta map records
1 for each resolved MSKU; a combo-expanded line carries Quantity 1, but a
single-resolution line keeps the original absent Quantity cell (the
default 1 reaches only the delta map). -/
theorem default_quantity_one (comboMap : List (String × List String))
    (mappingData : List SkuMappingRow) (platform : String) (row : SalesRow)
    (s : String)
    (hs : row.sku = some s) (hq : row.quantity = none)
    (hfil : platform = "Amazon" → amazonSellable row = true) :
    (∀ m, map_sku_to_msku comboMap mappingData s = MappingResult.single m →
        process_sales_file comboMap mappingData platform [row] =
          ([singleLine row m platform], [(m, 1)]) ∧
        (singleLine row m platform).quantityField = none) ∧
    (∀ A B, A ≠ B →
        map_sku_to_msku comboMap mappingData s = MappingResult.combo [A, B] →
        process_sales_file comboMap mappingData platform [row] =
          ([comboLine row s 1 A platform, comboLine row s 1 B platform],
           [(A, 1), (B, 1)])) := by
  have hgd : row.quantity.getD 1 = 1 := by rw [hq]; rfl
  have hq1 : ¬ row.quantity.getD 1 ≤ 0 := by rw [hgd]; omega
  have hfil2 : ¬ (platform = "Amazon" ∧ amazonSellable row = false) := by
    rintro ⟨h1, h2⟩
    rw [hfil h1] at h2
    cases h2
  constructor
  · intro m hres
    refine ⟨?_, hq⟩
    show processRow comboMap mappingData platform ([], []) row = _
    rw [processRow_run comboMap mappingData platform ([], []) row s hs hq1 hfil2,
      hres]
    simp [addChange, hgd]
  · intro A B hAB hres
    show processRow comboMap mappingData platform ([], []) row = _
    rw [processRow_run comboMap mappingData platform ([], []) row s hs hq1 hfil2,
      hres]
    simp only [List.foldl_cons, List.foldl_nil, hgd]
    simp [addChange, if_neg hAB]

/-- Claim C9, witness: concrete rows without a Quantity cell — a single
resolution yields delta 1 with the Quantity cell still absent in the
line, and a combo resolution yields Quantity-1 lines with delta 1 each. -/
theorem default_quantity_one_witness :
    (process_sales_file [("C", ["A", "B"])] [⟨"S", "M", "Flipkart"⟩] "Flipkart"
        [⟨some "S", none, none, none⟩] =
      ([singleLine ⟨some "S", none, none, none⟩ "M" "Flipkart"], [("M", 1)]) ∧
     (singleLine ⟨some "S", none, none, none⟩ "M" "Flipkart").quantityField = none) ∧
    process_sales_file [("C", ["A", "B"])] [⟨"S", "M", "Flipkart"⟩] "Flipkart"
        [⟨some "C", none, none, none⟩] =
      ([comboLine ⟨some "C", none, none, none⟩ "C" 1 "A" "Flipkart",
        comboLine ⟨some "C", none, none, none⟩ "C" 1 "B" "Flipkart"],
       [("A", 1), ("B", 1)]) := by
  have h1 := default_quantity_one [("C", ["A", "B"])] [⟨"S", "M", "Flipkart"⟩]
    "Flipkart" ⟨some "S", none, none, none⟩ "S" rfl rfl (by decide)
  have h2 := default_quantity_one [("C", ["A", "B"])] [⟨"S", "M", "Flipkart"⟩]
    "Flipkart" ⟨some "C", none, none, none⟩ "C" rfl rfl (by decide)
  exact ⟨h1.1 "M" (by decide), h2.2 "A" "B" (by decide) (by decide)⟩

/-- Rewriting every mapping row's platform column does not change which
row the sku search finds, up to that rewriting. -/
theorem findMappingRow_map_platform (mappingData : List SkuMappingRow)
    (sku : String) (pf : SkuMappingRow → String) :
    findMappingRow (mappingData.map fun r => { r with platform := pf r }) sku =
      (findMappingRow mappingData sku).map fun r => { r with platform := pf r } := by
  induction mappingData with
  | nil => rfl
  | cons a rest ih =>
      simp only [List.map_cons, findMappingRow]
      by_cases ha : a.sku = sku
      · simp [ha]
      · simp [ha, ih]

/-- Claim C6, counterexample: with a mapping table holding only a Flipkart
row for SKU "S" and a file whose headers detect as Amazon, resolution
still returns Single — no mapping entry for the detected platform exists,
so resolution does not take the platform into account. -/
theorem single_ignores_platform_cex :
    map_sku_to_msku [] [⟨"S", "M", "Flipkart"⟩] "S" = MappingResult.single "M" ∧
    detect_platform ["FNSKU", "Quantity"] = "Amazon" ∧
    ¬ ∃ r ∈ ([⟨"S", "M", "Flipkart"⟩] : List SkuMappingRow),
        r.sku = "S" ∧ r.platform = "Amazon" := by
  refine ⟨rfl, by decide, by decide⟩

/-- Claim C6, amended: a Single outcome is produced exactly when the SKU
is not a combo key and matches some mapping row — the first matching row
wins — and the outcome is invariant under rewriting every row's platform
column: the detected platform plays no part in resolution. -/
theorem single_resolution_first_match (comboMap : List (String × List String))
    (mappingData : List SkuMappingRow) (sku m : String) :
    (map_sku_to_msku comboMap mappingData sku = MappingResult.single m ↔
      dictFind? comboMap sku = none ∧
        ∃ r, findMappingRow mappingData sku = some r ∧ r.msku = m) ∧
    ∀ pf : SkuMappingRow → String,
      map_sku_to_msku comboMap
          (mappingData.map fun r => { r with platform := pf r }) sku =
        map_sku_to_msku comboMap mappingData sku := by
  constructor
  · unfold map_sku_to_msku
    cases hc : dictFind? comboMap sku with
    | some comps => simp
    | none =>
        cases hr : findMappingRow mappingData sku with
        | some r => simp
        | none => simp
  · intro pf
    unfold map_sku_to_msku
    rw [findMappingRow_map_platform mappingData sku pf]
    cases hc : dictFind? comboMap sku with
    | some comps => rfl
    | none =>
        cases hr : findMappingRow mappingData sku with
        | some r => rfl
        | none => rfl

/-- The ledger after a database inventory update for a present msku. -/
theorem db_update_inventory_ledger_of_some (ledger : List DbProduct) (m : String)
    (d : Int) (mt : String) (p0 : DbProduct)
    (hp : findDbProduct ledger m = some p0) :
    (db_update_inventory ledger m d mt).2.1 =
      setStockFirst ledger m (p0.currentStock + d) := by
  unfold db_update_inventory
  rw [hp]

/-- Claim C3: applying a signed delta D to a ledgered msku with current
stock C yields exactly C + D — in the database service directly, and in
the web-app batch update, where the outcome for one msku is unchanged by
whatever the other entries of the batch do (here: arbitrary other keys
before and after it). -/
theorem inventory_delta_exact (ledger : List DbProduct) (m : String) (d : Int)
    (p0 : DbProduct) (hp : findDbProduct ledger m = some p0)
    (inv : List InvRow) (q : Int) (r0 : InvRow) (l1 l2 : List (String × Int))
    (hr : findInvRow inv m = some r0)
    (h1 : ∀ c ∈ l1, c.1 ≠ m) (h2 : ∀ c ∈ l2, c.1 ≠ m) :
    (findDbProduct (db_update_inventory ledger m d "Sale").2.1 m).map
        DbProduct.currentStock = some (p0.currentStock + d) ∧
    (findInvRow (update_inventory inv (l1 ++ (m, q) :: l2)).inventory m).map
        InvRow.openingStock = some (r0.openingStock + (-q)) := by
  constructor
  · rw [db_update_inventory_ledger_of_some ledger m d "Sale" p0 hp,
      findDbProduct_setStockFirst, hp]
    simp
  · rw [update_inventory_decomp]
    show (findInvRow (invFold inv (l1 ++ (m, q) :: l2)) m).map InvRow.openingStock = _
    rw [invFold_append]
    simp only [invFold_cons]
    have hr1 : findInvRow (invFold inv l1) m = some r0 := by
      rw [findInvRow_invFold_of_ne l1 inv m h1]; exact hr
    rw [findInvRow_invFold_of_ne l2 _ m h2,
      findInvRow_applyChange_self _ m q r0 hr1]
    simp only [Option.map_some']
    show some (r0.openingStock - q) = some (r0.openingStock + -q)
    rw [Int.sub_eq_add_neg]

/-- Claim C3, witness: stock 10 with signed delta -3 becomes 10 + (-3) in
the database update, and a batch update with unrelated keys before and
after gives msku "M" exactly 10 + (-3). -/
theorem inventory_delta_exact_witness :
    (findDbProduct
        (db_update_inventory [⟨"M", "P", 10, 10, 2⟩] "M" (-3) "Sale").2.1
        "M").map DbProduct.currentStock = some (10 + (-3)) ∧
    (findInvRow
        (update_inventory [⟨"M", "P", 10, []⟩]
          ([("X", 2)] ++ ("M", 3) :: [("Y", 1)])).inventory
        "M").map InvRow.openingStock = some (10 + (-3)) := by
  exact inventory_delta_exact [⟨"M", "P", 10, 10, 2⟩] "M" (-3)
    ⟨"M", "P", 10, 10, 2⟩ rfl [⟨"M", "P", 10, []⟩] 3 ⟨"M", "P", 10, []⟩
    [("X", 2)] [("Y", 1)] rfl (by decide) (by decide)

/-- Claim C5: a delta-map msku with no matching inventory row produces the
MSKU-not-found warning, mutates nothing, and leaves the updates of all
other entries exactly as they would be without it. -/
theorem missing_msku_update_skipped (inv : List InvRow) (m : String) (q : Int)
    (l1 l2 : List (String × Int))
    (hm0 : findInvRow inv m = none) :
    ("MSKU not found: " ++ m) ∈
      (update_inventory inv (l1 ++ (m, q) :: l2)).warnings ∧
    (update_inventory inv (l1 ++ (m, q) :: l2)).inventory =
      (update_inventory inv (l1 ++ l2)).inventory ∧
    (update_inventory inv (l1 ++ (m, q) :: l2)).updatedItems =
      (update_inventory inv (l1 ++ l2)).updatedItems := by
  have hm1 : findInvRow (invFold inv l1) m = none :=
    findInvRow_invFold_none l1 inv m hm0
  have hac : applyChange (invFold inv l1) m q = (invFold inv l1, none) :=
    applyChange_of_none _ m q hm1
  rw [update_inventory_decomp, update_inventory_decomp]
  refine ⟨?_, ?_, ?_⟩
  · show ("MSKU not found: " ++ m) ∈ updWarns inv (l1 ++ (m, q) :: l2)
    rw [updWarns_append]
    refine List.mem_append_right _ ?_
    simp only [updWarns, hac]
    exact List.mem_cons_self _ _
  · show invFold inv (l1 ++ (m, q) :: l2) = invFold inv (l1 ++ l2)
    rw [invFold_append, invFold_append]
    simp only [invFold_cons, hac]
  · show updCount inv (l1 ++ (m, q) :: l2) = updCount inv (l1 ++ l2)
    rw [updCount_append, updCount_append]
    simp only [updCount, hac]

/-- Claim C5, witness: a batch with a ledgered key "A" and an unledgered
key "Z" records the not-found warning for "Z" while the "A" update and
counters match the run without the "Z" entry. -/
theorem missing_msku_update_skipped_witness :
    ("MSKU not found: " ++ "Z") ∈
      (update_inventory [⟨"A", "P", 3, []⟩] ([("A", 1)] ++ ("Z", 2) :: [])).warnings ∧
    (update_inventory [⟨"A", "P", 3, []⟩] ([("A", 1)] ++ ("Z", 2) :: [])).inventory =
      (update_inventory [⟨"A", "P", 3, []⟩] ([("A", 1)] ++ [])).inventory ∧
    (update_inventory [⟨"A", "P", 3, []⟩] ([("A", 1)] ++ ("Z", 2) :: [])).updatedItems =
      (update_inventory [⟨"A", "P", 3, []⟩] ([("A", 1)] ++ [])).updatedItems := by
  exact missing_msku_update_skipped [⟨"A", "P", 3, []⟩] "Z" 2 [("A", 1)] [] rfl

/-- Claim C7, counterexample: a product whose buffer column holds 90 and
whose stock falls to 82 satisfies 0 ≤ 82 < 90, yet the update emits no
warning — the code compares against the constant 5, not the product's
buffer threshold. -/
theorem buffer_threshold_cex :
    (update_inventory [⟨"M1", "Prod", 85, [("Buffer Stock", 90)]⟩]
        [("M1", 3)]).warnings = [] ∧
    (findInvRow
        (update_inventory [⟨"M1", "Prod", 85, [("Buffer Stock", 90)]⟩]
          [("M1", 3)]).inventory "M1").map InvRow.openingStock = some 82 ∧
    (0 : Int) ≤ 82 ∧ (82 : Int) < 90 := by
  refine ⟨rfl, rfl, by decide⟩

/-- Claim C7, amended: after writing the new stock, the update warns
Negative exactly when new stock < 0 and Low exactly when 0 ≤ new stock <
5 — the threshold is the fixed constant 5; the per-product buffer column
is never consulted — and otherwise records no warning for the entry. -/
theorem stock_classification (inv : List InvRow) (m : String) (q : Int)
    (r0 : InvRow) (h : findInvRow inv m = some r0) :
    (update_inventory inv [(m, q)]).warnings =
      (if r0.openingStock - q < 0 then
        [m ++ ": Negative stock (" ++ toString (r0.openingStock - q) ++ ")"]
       else if r0.openingStock - q < 5 then
        [m ++ ": Low stock (" ++ toString (r0.openingStock - q) ++ ")"]
       else []) ∧
    (findInvRow (update_inventory inv [(m, q)]).inventory m).map
        InvRow.openingStock = some (r0.openingStock - q) := by
  have hac := applyChange_of_some inv m q r0 h
  rw [update_inventory_decomp]
  constructor
  · show updWarns inv [(m, q)] = _
    simp only [updWarns, hac]
    simp
  · show (findInvRow (invFold inv [(m, q)]) m).map InvRow.openingStock = _
    simp only [invFold_cons, invFold_nil]
    rw [findInvRow_applyChange_self inv m q r0 h]
    simp

/-- Claim C7, witness: stock 2 sold 3 goes negative and yields exactly the
Negative-stock warning with the new value -1. -/
theorem stock_classification_witness :
    (update_inventory [⟨"M", "P", 2, []⟩] [("M", 3)]).warnings =
      (if (2 : Int) - 3 < 0 then
        ["M" ++ ": Negative stock (" ++ toString ((2 : Int) - 3) ++ ")"]
       else if (2 : Int) - 3 < 5 then
        ["M" ++ ": Low stock (" ++ toString ((2 : Int) - 3) ++ ")"]
       else []) ∧
    (findInvRow (update_inventory [⟨"M", "P", 2, []⟩] [("M", 3)]).inventory
        "M").map InvRow.openingStock = some ((2 : Int) - 3) := by
  exact stock_classification [⟨"M", "P", 2, []⟩] "M" 3 ⟨"M", "P", 2, []⟩ rfl

/-- Claim C10: the inventory update touches only the stock column — every
row keeps its msku, Product Name and all other columns, and a row whose
msku is not a key of the delta map is entirely unchanged. -/
theorem update_inventory_frame (inv : List InvRow) (changes : List (String × Int)) :
    FramePreserved (changes.map Prod.fst) inv
      (update_inventory inv changes).inventory := by
  rw [update_inventory_decomp]
  exact framePreserved_invFold changes inv

end WMS
